import Mathlib

/-!
Verification of the harmony-search weekly schedule optimizer
(`harmony_search.py`).

The Python module is embedded shallowly: the implicit global random
source is made explicit as a stream of draws (`RS`) threaded through
every operation, and Python operations that can raise (`random.randint`
on an empty range, `random.choice` on an empty sequence, list indexing
out of range, `min`/`max` of an empty sequence) are modelled with
`Except String`, exception propagation being `exBind`.  Python floats
are modelled by exact rationals (`Rat`); `int(...)` is truncation
toward zero.
-/

/-- Exception propagation: run `f` unless an exception is in flight. -/
def exBind {α β : Type} (x : Except String α) (f : α → Except String β) :
    Except String β :=
  match x with
  | Except.error e => Except.error e
  | Except.ok a => f a

/-- A stream of pseudo-random draws; each primitive consumes the head
(an exhausted stream yields 0, which keeps every function total while
still letting every branch be exercised by some stream). -/
abbrev RS := List Nat

/-- Take the next raw draw from the stream. -/
def drawNat (s : RS) : Nat × RS := (s.headD 0, s.tail)

/-- `random.random()`: a rational in `[0, 1)` derived from the next
draw; the source's threshold comparisons are kept verbatim. -/
def pyRandom (s : RS) : Rat × RS :=
  let p := drawNat s
  (mkRat (p.1 % 1000 : Nat) 1000, p.2)

/-- `random.randint(lo, hi)`: raises on an empty range (`lo > hi`),
otherwise returns a value in `[lo, hi]` determined by the next draw. -/
def pyRandint (lo hi : Int) (s : RS) : Except String (Int × RS) :=
  let p := drawNat s
  if hi < lo then Except.error "empty range for randrange"
  else Except.ok (lo + ((p.1 % (hi - lo + 1).toNat : Nat) : Int), p.2)

/-- `random.choice(l)`: raises on an empty sequence, otherwise picks
the element at an index determined by the next draw. -/
def pyChoice {α : Type} (l : List α) (s : RS) : Except String (α × RS) :=
  let p := drawNat s
  match l with
  | [] => Except.error "Cannot choose from an empty sequence"
  | a :: _ => Except.ok (l.getD (p.1 % l.length) a, p.2)

/-- One day's plan: the dict built in `_generate_random_schedule` /
`_improvise_new_harmony`. -/
structure DayPlan where
  day : Nat
  exercise_type : String
  duration : Int
  intensity : String
deriving DecidableEq

/-- One harmony-memory member: `{'schedule': ..., 'fitness': ...}`. -/
structure Entry where
  schedule : List DayPlan
  fitness : Rat
deriving DecidableEq

def aerobic_list : List String := ["러닝", "사이클", "수영", "빠르게 걷기", "HIIT"]

def strength_list : List String :=
  ["웨이트 트레이닝", "맨몸 운동", "덤벨 운동", "케틀벨", "밴드 운동"]

def mixed_list : List String := ["크로스핏", "서킷 트레이닝", "유산소+근력", "기능성 운동"]

def yoga_list : List String := ["요가", "필라테스", "스트레칭", "코어 운동"]

/-- `base_exercises` table of `_get_exercise_types`. -/
def base_exercises : List (String × List String) :=
  [("유산소", aerobic_list), ("근력 운동", strength_list),
   ("복합 운동", mixed_list), ("요가/필라테스", yoga_list)]

/-- `_get_exercise_types`: falls back to the mixed category. -/
def get_exercise_types (preference : String) : List String :=
  (List.lookup preference base_exercises).getD mixed_list

def intensities : List String := ["낮음", "중간", "높음"]

/-- Body of the per-day loop of `_generate_random_schedule`: with
`random.random() > 0.3` an active day (activity, duration drawn from
`randint(max(20, available_time - 20), available_time)`, intensity),
otherwise a REST day. -/
def gen_day (available_time : Int) (types : List String) (day : Nat) (s : RS) :
    Except String (DayPlan × RS) :=
  let p := pyRandom s
  if mkRat 3 10 < p.1 then
    exBind (pyChoice types p.2) (fun q =>
      exBind (pyRandint (max 20 (available_time - 20)) available_time q.2) (fun r =>
        exBind (pyChoice intensities r.2) (fun t =>
          Except.ok (⟨day + 1, q.1, r.1, t.1⟩, t.2))))
  else
    Except.ok (⟨day + 1, "휴식", 0, "없음"⟩, p.2)

/-- The `for day in range(days)` loop of `_generate_random_schedule`,
generating days `day, day+1, ...` (`k` remaining). -/
def gen_days (available_time : Int) (types : List String) :
    Nat → Nat → RS → Except String (List DayPlan × RS)
  | _, 0, s => Except.ok ([], s)
  | day, k + 1, s =>
    exBind (gen_day available_time types day s) (fun p =>
      exBind (gen_days available_time types (day + 1) k p.2) (fun q =>
        Except.ok (p.1 :: q.1, q.2)))

/-- `_generate_random_schedule`. -/
def generate_random_schedule (available_time : Int) (preference : String)
    (days : Nat) (s : RS) : Except String (List DayPlan × RS) :=
  gen_days available_time (get_exercise_types preference) 0 days s

/-- `workout_days`: number of non-REST days. -/
def workout_days (schedule : List DayPlan) : Nat :=
  schedule.countP (fun d => decide (d.exercise_type ≠ "휴식"))

/-- `total_time` of the fitness function: sum of all durations. -/
def total_duration (schedule : List DayPlan) : Int :=
  (schedule.map (fun d => d.duration)).sum

/-- Occurrences of one intensity label (the `intensity_count` dict). -/
def count_intensity (schedule : List DayPlan) (i : String) : Nat :=
  schedule.countP (fun d => decide (d.intensity = i))

/-- Longest run of consecutive non-REST days (`max_consecutive`). -/
def max_consecutive (schedule : List DayPlan) : Nat :=
  (schedule.foldl
    (fun p d => if d.exercise_type ≠ "휴식" then (p.1 + 1, max p.2 (p.1 + 1)) else (0, p.2))
    (0, 0)).2

/-- `unique_exercises`: distinct non-REST activity labels. -/
def unique_exercises (schedule : List DayPlan) : Nat :=
  ((schedule.filter (fun d => decide (d.exercise_type ≠ "휴식"))).map
    (fun d => d.exercise_type)).dedup.length

/-- Fitness criterion 1 (frequency). -/
def frequency_score (schedule : List DayPlan) : Rat :=
  let w := workout_days schedule
  if 3 ≤ w ∧ w ≤ 5 then 30 else if w = 2 ∨ w = 6 then 20 else 10

/-- Fitness criterion 2 (time-budget utilization). -/
def utilization_score (schedule : List DayPlan) (available_time : Int) : Rat :=
  let target : Int := available_time * 4
  let ratio : Rat :=
    if 0 < target then min ((total_duration schedule : Rat) / (target : Rat)) 1 else 0
  ratio * 25

/-- Fitness criterion 3 (intensity balance). -/
def balance_score (schedule : List DayPlan) : Rat :=
  let w := workout_days schedule
  let cl := count_intensity schedule "낮음"
  let cm := count_intensity schedule "중간"
  let ch := count_intensity schedule "높음"
  let maxc := max cl (max cm ch)
  let minc := min cl (min cm ch)
  (1 - ((maxc : Rat) - (minc : Rat)) / ((max 1 w : Nat) : Rat)) * 20

/-- Fitness criterion 4 (rest spacing). -/
def spacing_score (schedule : List DayPlan) : Rat :=
  if max_consecutive schedule ≤ 3 then 15
  else if max_consecutive schedule ≤ 5 then 10 else 5

/-- Fitness criterion 5 (variety). -/
def variety_score (schedule : List DayPlan) : Rat :=
  ((min (unique_exercises schedule * 5) 10 : Nat) : Rat)

/-- `_calculate_fitness` (its `analysis` argument is never read by the
source and is therefore omitted). -/
def calculate_fitness (schedule : List DayPlan) (available_time : Int) : Rat :=
  frequency_score schedule + utilization_score schedule available_time +
    balance_score schedule + spacing_score schedule + variety_score schedule

/-- Body of the per-day loop of `_improvise_new_harmony`: with
probability `hmcr` copy (and with probability `par` pitch-adjust) a day
from a random memory member, otherwise synthesize a fresh day exactly as
in `_generate_random_schedule`. -/
def improvise_day (hm : List Entry) (available_time : Int) (types : List String)
    (hmcr par : Rat) (day : Nat) (s : RS) : Except String (DayPlan × RS) :=
  let p := pyRandom s
  if p.1 < hmcr then
    exBind (pyChoice hm p.2) (fun q =>
      match q.1.schedule.get? day with
      | none => Except.error "list index out of range"
      | some d0 =>
        let r := pyRandom q.2
        if r.1 < par then
          if d0.exercise_type ≠ "휴식" then
            exBind (pyRandint (-15) 15 r.2) (fun u =>
              exBind (pyChoice intensities u.2) (fun v =>
                Except.ok ({ d0 with
                  duration := min available_time (max 20 (d0.duration + u.1)),
                  intensity := v.1 }, v.2)))
          else Except.ok (d0, r.2)
        else Except.ok (d0, r.2))
  else
    let r := pyRandom p.2
    if mkRat 3 10 < r.1 then
      exBind (pyChoice types r.2) (fun q2 =>
        exBind (pyRandint (max 20 (available_time - 20)) available_time q2.2) (fun u2 =>
          exBind (pyChoice intensities u2.2) (fun v2 =>
            Except.ok (⟨day + 1, q2.1, u2.1, v2.1⟩, v2.2))))
    else
      Except.ok (⟨day + 1, "휴식", 0, "없음"⟩, r.2)

/-- The `for day in range(days)` loop of `_improvise_new_harmony`. -/
def improvise_days (hm : List Entry) (available_time : Int) (types : List String)
    (hmcr par : Rat) : Nat → Nat → RS → Except String (List DayPlan × RS)
  | _, 0, s => Except.ok ([], s)
  | day, k + 1, s =>
    exBind (improvise_day hm available_time types hmcr par day s) (fun p =>
      exBind (improvise_days hm available_time types hmcr par (day + 1) k p.2) (fun q =>
        Except.ok (p.1 :: q.1, q.2)))

/-- `_initialize_harmony_memory`: `k` remaining of the `hms` random
members, each scored on creation. -/
def init_mem (available_time : Int) (types : List String) (days : Nat) :
    Nat → RS → Except String (List Entry × RS)
  | 0, s => Except.ok ([], s)
  | k + 1, s =>
    exBind (gen_days available_time types 0 days s) (fun p =>
      exBind (init_mem available_time types days k p.2) (fun q =>
        Except.ok (⟨p.1, calculate_fitness p.1 available_time⟩ :: q.1, q.2)))

/-- Scan for the first index attaining the minimum fitness (tail of the
list, starting index `i`, current best index `bi` with value `bv`). -/
def worstAux : List Entry → Nat → Nat → Rat → Nat
  | [], _, bi, _ => bi
  | e :: t, i, bi, bv =>
    if e.fitness < bv then worstAux t (i + 1) i e.fitness
    else worstAux t (i + 1) bi bv

/-- `min(range(len(hm)), key=lambda i: hm[i]['fitness'])`: the first
index attaining the minimum fitness. -/
def worst_idx : List Entry → Nat
  | [] => 0
  | e :: t => worstAux t 1 0 e.fitness

/-- `max(hm, key=lambda h: h['fitness'])`: the first member attaining
the maximum fitness. -/
def bestAux : List Entry → Entry → Entry
  | [], b => b
  | e :: t, b => if b.fitness < e.fitness then bestAux t e else bestAux t b

def dummyEntry : Entry := ⟨[], 0⟩

/-- The replacement step of one optimization iteration: replace the
first-encountered worst member when strictly improved upon. -/
def step (hm : List Entry) (newh : List DayPlan) (fit : Rat) : List Entry :=
  if (hm.getD (worst_idx hm) dummyEntry).fitness < fit then
    hm.set (worst_idx hm) ⟨newh, fit⟩
  else hm

/-- The `for iteration in range(self.iterations)` loop of
`optimize_schedule`: improvise, score, then replace the worst member if
beaten; `min` over an empty memory raises. -/
def search_loop (available_time : Int) (types : List String) (hmcr par : Rat)
    (days : Nat) : Nat → List Entry → RS → Except String (List Entry × RS)
  | 0, hm, s => Except.ok (hm, s)
  | k + 1, hm, s =>
    exBind (improvise_days hm available_time types hmcr par 0 days s) (fun p =>
      match hm with
      | [] => Except.error "min() arg is an empty sequence"
      | _ :: _ =>
        search_loop available_time types hmcr par days k
          (step hm p.1 (calculate_fitness p.1 available_time)) p.2)

def days_kr : List String :=
  ["월요일", "화요일", "수요일", "목요일", "금요일", "토요일", "일요일"]

/-- `base_calories` table of `_estimate_calories`. -/
def base_calories : List (String × Int) :=
  [("러닝", 10), ("사이클", 8), ("수영", 9), ("빠르게 걷기", 5), ("HIIT", 12),
   ("웨이트 트레이닝", 6), ("맨몸 운동", 7), ("덤벨 운동", 6), ("케틀벨", 8), ("밴드 운동", 5),
   ("크로스핏", 11), ("서킷 트레이닝", 10), ("유산소+근력", 8), ("기능성 운동", 7),
   ("요가", 3), ("필라테스", 4), ("스트레칭", 2), ("코어 운동", 5)]

/-- `intensity_multiplier` table of `_estimate_calories`. -/
def intensity_multiplier : List (String × Rat) :=
  [("낮음", 7/10), ("중간", 1), ("높음", 13/10)]

/-- Python `int(...)`: truncation toward zero of an exact rational. -/
def int_trunc (q : Rat) : Int := if 0 ≤ q then ⌊q⌋ else ⌈q⌉

/-- `_estimate_calories`: `int(base * duration * multiplier)` with the
default coefficient 7 and default multiplier 1.0. -/
def estimate_calories (exercise_type : String) (duration : Int) (intensity : String) : Int :=
  let base := (List.lookup exercise_type base_calories).getD 7
  let mult := (List.lookup intensity intensity_multiplier).getD 1
  int_trunc ((base : Rat) * (duration : Rat) * mult)

/-- `goals` table of `_get_exercise_goal`. -/
def goals : List (String × String) :=
  [("러닝", "심폐지구력 향상"), ("사이클", "하체 근력 및 지구력"),
   ("수영", "전신 근력 및 유연성"), ("빠르게 걷기", "기초 체력 및 체지방 감소"),
   ("HIIT", "체지방 감소 및 대사량 증가"), ("웨이트 트레이닝", "근력 및 근육량 증가"),
   ("맨몸 운동", "기능성 근력 향상"), ("덤벨 운동", "상체 근력 강화"),
   ("케틀벨", "전신 근력 및 폭발력"), ("밴드 운동", "근지구력 및 관절 안정성"),
   ("크로스핏", "전신 체력 및 폭발력"), ("서킷 트레이닝", "체지방 감소 및 근지구력"),
   ("유산소+근력", "균형잡힌 체력 발달"), ("기능성 운동", "일상 동작 능력 향상"),
   ("요가", "유연성 및 정신 건강"), ("필라테스", "코어 강화 및 자세 교정"),
   ("스트레칭", "유연성 및 회복"), ("코어 운동", "복부 근력 및 안정성")]

/-- `_get_exercise_goal` (its `intensity` argument is never read). -/
def get_exercise_goal (exercise_type : String) (_intensity : String) : String :=
  (List.lookup exercise_type goals).getD "전반적인 건강 증진"

/-- One entry of the formatted `exercise_plan`. -/
structure PlanEntry where
  day : String
  exercise : String
  duration : Int
  intensity : String
  goal : String
  estimated_calories : Int
deriving DecidableEq

/-- The `weekly_summary` of the formatted output. -/
structure WeeklySummary where
  total_exercise_time : Int
  estimated_calories : Int
  workout_days : Nat
  goal_timeframe : String
deriving DecidableEq

/-- The output of `_format_schedule`. -/
structure ScheduleReport where
  exercise_plan : List PlanEntry
  weekly_summary : WeeklySummary
deriving DecidableEq

/-- Body of the `for i, day_plan in enumerate(schedule)` loop of
`_format_schedule`: `days_kr[i]` raises IndexError when `i ≥ 7`. -/
def format_day (i : Nat) (d : DayPlan) : Except String PlanEntry :=
  match days_kr.get? i with
  | none => Except.error "list index out of range"
  | some label =>
    if d.exercise_type ≠ "휴식" then
      Except.ok ⟨label, d.exercise_type, d.duration, d.intensity,
        get_exercise_goal d.exercise_type d.intensity,
        estimate_calories d.exercise_type d.duration d.intensity⟩
    else
      Except.ok ⟨label, "휴식 또는 가벼운 스트레칭", 0, "없음", "회복 및 재충전", 0⟩

/-- The enumeration loop of `_format_schedule`, starting at index `i`. -/
def format_days : Nat → List DayPlan → Except String (List PlanEntry)
  | _, [] => Except.ok []
  | i, d :: t =>
    exBind (format_day i d) (fun entry =>
      exBind (format_days (i + 1) t) (fun rest => Except.ok (entry :: rest)))

/-- `_format_schedule` (its `available_time` and `analysis` arguments
are never read). -/
def format_schedule (schedule : List DayPlan) (_available_time : Int) :
    Except String ScheduleReport :=
  exBind (format_days 0 schedule) (fun plan =>
    let w := workout_days schedule
    let active := schedule.filter (fun d => decide (d.exercise_type ≠ "휴식"))
    let total_time : Int := (active.map (fun d => d.duration)).sum
    let total_cal : Int :=
      (active.map (fun d => estimate_calories d.exercise_type d.duration d.intensity)).sum
    let timeframe : String :=
      if 4 ≤ w then "8-10주" else if 3 ≤ w then "10-12주" else "12-16주"
    Except.ok ⟨plan, ⟨total_time, total_cal, w, timeframe⟩⟩)

/-- The state stored by `HarmonySearch.__init__`. -/
structure HSConfig where
  hms : Int
  hmcr : Rat
  par : Rat
  iterations : Int
deriving DecidableEq

/-- `HarmonySearch.__init__`: stores the four parameters and performs
no validation of any kind. -/
def harmony_search_init (harmony_memory_size : Int) (hmcr par : Rat)
    (iterations : Int) : HSConfig :=
  ⟨harmony_memory_size, hmcr, par, iterations⟩

/-- `optimize_schedule`: initialize the memory, run the improvisation
loop, pick the first-encountered best member (`max` of an empty memory
raises), and format it. -/
def optimize_schedule (hms : Int) (hmcr par : Rat) (iterations : Nat)
    (available_time : Int) (preference : String) (days : Int) (s : RS) :
    Except String (ScheduleReport × RS) :=
  let types := get_exercise_types preference
  exBind (init_mem available_time types days.toNat hms.toNat s) (fun p =>
    exBind (search_loop available_time types hmcr par days.toNat iterations p.1 p.2) (fun q =>
      match q.1 with
      | [] => Except.error "max() arg is an empty sequence"
      | e :: t =>
        exBind (format_schedule (bestAux t e).schedule available_time) (fun rep =>
          Except.ok (rep, q.2))))

/-- Whether a Python-level exception was raised. -/
def isError {α : Type} (e : Except String α) : Bool :=
  match e with
  | Except.error _ => true
  | Except.ok _ => false

/-- Maximum fitness present in a memory (0 for the empty memory, which
the engine never queries). -/
def max_fitness : List Entry → Rat
  | [] => 0
  | e :: t => max e.fitness (max_fitness t)

/-- The per-day invariant of the data model (§3 of the design): REST
carries duration 0 and intensity NONE; an active day carries a positive
duration and one of the three intensity labels. -/
def WFDay (d : DayPlan) : Prop :=
  (d.exercise_type = "휴식" → d.duration = 0 ∧ d.intensity = "없음") ∧
  (d.exercise_type ≠ "휴식" →
    0 < d.duration ∧ (d.intensity = "낮음" ∨ d.intensity = "중간" ∨ d.intensity = "높음"))

instance (d : DayPlan) : Decidable (WFDay d) := by
  unfold WFDay
  infer_instance

/-! ### Basic lemmas about the exception monad and the primitives -/

lemma exBind_ok {α β : Type} (a : α) (f : α → Except String β) :
    exBind (Except.ok a) f = f a := rfl

lemma exBind_error {α β : Type} (e : String) (f : α → Except String β) :
    exBind (Except.error e) f = Except.error e := rfl

lemma exBind_eq_ok {α β : Type} {x : Except String α} {f : α → Except String β}
    {b : β} (h : exBind x f = Except.ok b) :
    ∃ a, x = Except.ok a ∧ f a = Except.ok b := by
  cases x with
  | error e => exact absurd h (by simp [exBind])
  | ok a => exact ⟨a, rfl, h⟩

lemma isError_exBind {α β : Type} (x : Except String α) (f : α → Except String β)
    (h : ∀ a, isError (f a) = true) : isError (exBind x f) = true := by
  cases x with
  | error e => rfl
  | ok a => exact h a

lemma isError_exBind_left {α β : Type} (x : Except String α) (f : α → Except String β)
    (h : isError x = true) : isError (exBind x f) = true := by
  cases x with
  | error e => rfl
  | ok a => exact absurd h (by simp [isError])

instance {α : Type} [DecidableEq α] : DecidableEq (Except String α) := by
  intro x y
  cases x with
  | error a =>
    cases y with
    | error b =>
      exact decidable_of_iff (a = b)
        ⟨fun h => by rw [h], fun h => Except.error.inj h⟩
    | ok b => exact isFalse (fun h => Except.noConfusion h)
  | ok a =>
    cases y with
    | error b => exact isFalse (fun h => Except.noConfusion h)
    | ok b =>
      exact decidable_of_iff (a = b)
        ⟨fun h => by rw [h], fun h => Except.ok.inj h⟩

lemma pyRandint_bounds {lo hi : Int} {s : RS} {v : Int} {t : RS}
    (h : pyRandint lo hi s = Except.ok (v, t)) : lo ≤ v ∧ v ≤ hi := by
  simp only [pyRandint] at h
  by_cases hlt : hi < lo
  · rw [if_pos hlt] at h
    exact absurd h (by simp)
  · rw [if_neg hlt] at h
    have h' : (lo + (((drawNat s).1 % (hi - lo + 1).toNat : Nat) : Int),
        (drawNat s).2) = (v, t) := Except.ok.inj h
    have hv : lo + (((drawNat s).1 % (hi - lo + 1).toNat : Nat) : Int) = v :=
      congrArg Prod.fst h'
    have h1 : (0 : Int) ≤ hi - lo + 1 := by omega
    have h2 : ((hi - lo + 1).toNat : Int) = hi - lo + 1 := Int.toNat_of_nonneg h1
    have h3 : (drawNat s).1 % (hi - lo + 1).toNat < (hi - lo + 1).toNat :=
      Nat.mod_lt _ (by omega)
    have h4 : (((drawNat s).1 % (hi - lo + 1).toNat : Nat) : Int) <
        ((hi - lo + 1).toNat : Int) := by exact_mod_cast h3
    omega

lemma pyChoice_mem {α : Type} {l : List α} {s : RS} {a : α} {t : RS}
    (h : pyChoice l s = Except.ok (a, t)) : a ∈ l := by
  unfold pyChoice at h
  cases l with
  | nil => exact absurd h (by simp)
  | cons x xs =>
    simp only [Except.ok.injEq, Prod.mk.injEq] at h
    obtain ⟨ha, -⟩ := h
    have hlt : (drawNat s).1 % (x :: xs).length < (x :: xs).length :=
      Nat.mod_lt _ (by simp)
    rw [← ha, List.getD_eq_getElem (x :: xs) x hlt]
    exact List.getElem_mem hlt

/-! ### C3: the best score in memory never decreases across an iteration -/

lemma max_fitness_set (l : List Entry) (i : Nat) (e : Entry)
    (h : (l.getD i dummyEntry).fitness ≤ e.fitness) :
    max_fitness l ≤ max_fitness (l.set i e) := by
  induction l generalizing i with
  | nil => exact le_rfl
  | cons x t ih =>
    cases i with
    | zero =>
      simp only [List.set_cons_zero, max_fitness]
      exact max_le_max (by simpa using h) le_rfl
    | succ n =>
      simp only [List.set_cons_succ, max_fitness]
      exact max_le_max le_rfl (ih n (by simpa using h))

/-- C3: within one `optimize_schedule` run, the maximum fitness held in
harmony memory is non-decreasing across each improvise/replace
iteration: the replacement step never lowers the maximum stored
fitness, for every memory, candidate and score. -/
theorem c3_best_score_monotone (hm : List Entry) (newh : List DayPlan) (fit : Rat) :
    max_fitness hm ≤ max_fitness (step hm newh fit) := by
  unfold step
  split_ifs with h
  · exact max_fitness_set hm (worst_idx hm) ⟨newh, fit⟩ (le_of_lt h)
  · exact le_rfl

/-! ### C4: the memory always holds exactly `hms` members -/

lemma init_mem_length (available_time : Int) (types : List String) (days : Nat) :
    ∀ (count : Nat) (s : RS) (hm : List Entry) (t : RS),
      init_mem available_time types days count s = Except.ok (hm, t) →
      hm.length = count := by
  intro count
  induction count with
  | zero =>
    intro s hm t h
    simp only [init_mem, Except.ok.injEq, Prod.mk.injEq] at h
    rw [← h.1]
    rfl
  | succ k ih =>
    intro s hm t h
    simp only [init_mem] at h
    obtain ⟨p, -, h⟩ := exBind_eq_ok h
    obtain ⟨q, hq, h⟩ := exBind_eq_ok h
    simp only [Except.ok.injEq, Prod.mk.injEq] at h
    rw [← h.1]
    simp [ih p.2 q.1 q.2 hq]

/-- C4: after `_initialize_harmony_memory` the memory holds exactly
`hms` entries, and the replacement step of each iteration preserves the
size (it substitutes in place, never shrinking or growing). -/
theorem c4_memory_size_invariant :
    (∀ (count : Nat) (available_time : Int) (types : List String) (days : Nat)
        (s : RS) (hm : List Entry) (t : RS),
        init_mem available_time types days count s = Except.ok (hm, t) →
        hm.length = count) ∧
    (∀ (hm : List Entry) (newh : List DayPlan) (fit : Rat),
        (step hm newh fit).length = hm.length) := by
  constructor
  · intro count available_time types days s hm t h
    exact init_mem_length available_time types days count s hm t h
  · intro hm newh fit
    unfold step
    split_ifs <;> simp

theorem c4_memory_size_invariant_witness :
    ([⟨[⟨1, "휴식", 0, "없음"⟩], calculate_fitness [⟨1, "휴식", 0, "없음"⟩] 60⟩] :
      List Entry).length = 1 :=
  c4_memory_size_invariant.1 1 60 (get_exercise_types "복합 운동") 1 [0]
    [⟨[⟨1, "휴식", 0, "없음"⟩], calculate_fitness [⟨1, "휴식", 0, "없음"⟩] 60⟩] [] rfl

/-! ### C7: memory members other than the replaced one are untouched -/

/-- C7: a day decision taken from a harmony-memory member during
improvisation is copied, never aliased — pitch adjustment builds the
new candidate only — so across one iteration every stored member other
than the explicitly replaced worst slot is exactly unchanged. -/
theorem c7_copy_not_alias_frame (hm : List Entry) (newh : List DayPlan) (fit : Rat)
    (j : Nat) (h : j ≠ worst_idx hm) :
    (step hm newh fit).get? j = hm.get? j := by
  unfold step
  split_ifs with hc
  · exact List.get?_set_ne _ hm (Ne.symm h)
  · rfl

theorem c7_copy_not_alias_frame_witness :
    (step [⟨[], 10⟩, ⟨[], 50⟩] [] 60).get? 1 =
      ([⟨[], 10⟩, ⟨[], 50⟩] : List Entry).get? 1 :=
  c7_copy_not_alias_frame [⟨[], 10⟩, ⟨[], 50⟩] [] 60 1 (by decide)

/-! ### C1: a zero daily budget makes active-day generation raise -/

lemma pyRandint_zero_budget (q : RS) :
    pyRandint (max 20 ((0:Int) - 20)) 0 q = Except.error "empty range for randrange" := by
  simp only [pyRandint]
  rw [if_pos (by decide)]

lemma gen_day_zero_budget {types : List String} {day : Nat} {s : RS} {d : DayPlan} {t : RS}
    (h : gen_day 0 types day s = Except.ok (d, t)) :
    d.exercise_type = "휴식" ∧ d.duration = 0 ∧ d.intensity = "없음" := by
  simp only [gen_day] at h
  by_cases hr : mkRat 3 10 < (pyRandom s).1
  · rw [if_pos hr] at h
    exfalso
    obtain ⟨q, -, h⟩ := exBind_eq_ok h
    rw [pyRandint_zero_budget q.2, exBind_error] at h
    exact Except.noConfusion h
  · rw [if_neg hr] at h
    have h' := Except.ok.inj h
    have hd : (⟨day + 1, "휴식", 0, "없음"⟩ : DayPlan) = d := congrArg Prod.fst h'
    rw [← hd]
    exact ⟨rfl, rfl, rfl⟩

lemma gen_days_zero_budget (types : List String) :
    ∀ (k day : Nat) (s : RS) (r : List DayPlan) (t : RS),
      gen_days 0 types day k s = Except.ok (r, t) →
      ∀ d ∈ r, d.exercise_type = "휴식" ∧ d.duration = 0 ∧ d.intensity = "없음" := by
  intro k
  induction k with
  | zero =>
    intro day s r t h d hd
    have h' := Except.ok.inj h
    have hr : ([] : List DayPlan) = r := congrArg Prod.fst h'
    rw [← hr] at hd
    exact absurd hd (by simp)
  | succ n ih =>
    intro day s r t h d hd
    simp only [gen_days] at h
    obtain ⟨p, hp, h⟩ := exBind_eq_ok h
    obtain ⟨q, hq, h⟩ := exBind_eq_ok h
    have h' := Except.ok.inj h
    have hr : p.1 :: q.1 = r := congrArg Prod.fst h'
    rw [← hr] at hd
    rcases List.mem_cons.mp hd with hd1 | hd2
    · rw [hd1]
      exact gen_day_zero_budget hp
    · exact ih (day + 1) p.2 q.1 q.2 hq d hd2

/-- C1 counterexample: with `available_time = 0`, a draw that makes day
0 active reaches `randint(max(20, 0-20), 0) = randint(20, 0)`, whose
range is empty, so generation raises a range error instead of clamping
the duration — refuting "no generation or improvisation path fails". -/
theorem c1_zero_budget_counterexample :
    generate_random_schedule 0 "복합 운동" 1 [400, 0] =
      Except.error "empty range for randrange" := by decide

/-- C1 amended: with `available_time = 0`, generation succeeds only
when every day is drawn REST; every day of a successfully generated
candidate is REST with zero duration (so no active day with a
non-positive duration is ever produced, vacuously), and any day drawn
active makes generation raise. -/
theorem c1_zero_budget_amended :
    (∀ (types : List String) (day : Nat) (s : RS) (d : DayPlan) (t : RS),
        gen_day 0 types day s = Except.ok (d, t) →
        d.exercise_type = "휴식" ∧ d.duration = 0 ∧ d.intensity = "없음") ∧
    (∀ (preference : String) (days : Nat) (s : RS) (r : List DayPlan) (t : RS),
        generate_random_schedule 0 preference days s = Except.ok (r, t) →
        ∀ d ∈ r, d.exercise_type = "휴식" ∧ d.duration = 0 ∧ d.intensity = "없음") := by
  constructor
  · intro types day s d t h
    exact gen_day_zero_budget h
  · intro preference days s r t h
    exact gen_days_zero_budget (get_exercise_types preference) days 0 s r t h

theorem c1_zero_budget_amended_witness :
    (DayPlan.mk 1 "휴식" 0 "없음").exercise_type = "휴식" ∧
      (DayPlan.mk 1 "휴식" 0 "없음").duration = 0 ∧
      (DayPlan.mk 1 "휴식" 0 "없음").intensity = "없음" :=
  c1_zero_budget_amended.2 "유산소" 2 [0, 0]
    [⟨1, "휴식", 0, "없음"⟩, ⟨2, "휴식", 0, "없음"⟩] [] (by decide)
    ⟨1, "휴식", 0, "없음"⟩ (by decide)

/-! ### C2: no construction-time validation; failures surface mid-search -/

/-- C2 counterexample: `__init__` stores `hms = 0` without any
validation, and the failure then surfaces mid-search inside
`optimize_schedule` (here: `random.choice` on the empty memory during
the first improvisation raises). -/
theorem c2_no_validation_counterexample :
    harmony_search_init 0 (mkRat 9 10) (mkRat 3 10) 50 =
      ⟨0, mkRat 9 10, mkRat 3 10, 50⟩ ∧
    isError (optimize_schedule 0 (mkRat 9 10) (mkRat 3 10) 50 60 "복합 운동" 7 []) = true :=
  ⟨rfl, by decide⟩

lemma search_loop_empty_err (available_time : Int) (types : List String)
    (hmcr par : Rat) (days k : Nat) (s : RS) :
    isError (search_loop available_time types hmcr par days (k + 1) [] s) = true := by
  simp only [search_loop]
  exact isError_exBind _ _ (fun a => rfl)

/-- C2 amended: construction never rejects anything; with `hms ≤ 0` the
failure is instead discovered inside `optimize_schedule` itself — the
empty memory makes `choice`/`min`/`max` raise mid-search. -/
theorem c2_nonpositive_hms_fails_mid_search (hms : Int) (hmcr par : Rat)
    (iterations : Nat) (available_time : Int) (preference : String)
    (days : Int) (s : RS) (h : hms ≤ 0) :
    isError (optimize_schedule hms hmcr par iterations available_time preference days s) =
      true := by
  simp only [optimize_schedule]
  rw [Int.toNat_of_nonpos h]
  rw [show init_mem available_time (get_exercise_types preference) days.toNat 0 s =
      Except.ok ([], s) from rfl]
  simp only [exBind_ok]
  cases iterations with
  | zero => rfl
  | succ k =>
    exact isError_exBind_left _ _ (search_loop_empty_err _ _ _ _ _ _ _)

theorem c2_nonpositive_hms_fails_mid_search_witness :
    isError (optimize_schedule (-1) (mkRat 1 2) (mkRat 1 2) 3 30 "유산소" 7 [5]) = true :=
  c2_nonpositive_hms_fails_mid_search (-1) (mkRat 1 2) (mkRat 1 2) 3 30 "유산소" 7 [5]
    (by decide)

/-! ### C8: the reported energy is the truncated product -/

/-- C8 counterexample: for 요가 (coefficient 3), 21 minutes, LOW (0.7)
the source computes `int(3 * 21 * 0.7) = int(44.1) = 44`, but the exact
product is `44.1 ≠ 44`: the formatted energy is the truncation of the
product, not the product itself as the claim states. -/
theorem c8_energy_formula_counterexample :
    format_day 0 ⟨1, "요가", 21, "낮음"⟩ =
      Except.ok ⟨"월요일", "요가", 21, "낮음", "유연성 및 정신 건강", 44⟩ ∧
    ((44 : Rat) ≠ (3 : Rat) * 21 * (7/10)) := by
  constructor
  · have hlook : List.lookup "요가" base_calories = some 3 := by decide
    have hmult : List.lookup "낮음" intensity_multiplier = some (7/10) := rfl
    have hcal : estimate_calories "요가" 21 "낮음" = 44 := by
      simp only [estimate_calories, hlook, hmult, Option.getD_some]
      norm_num [int_trunc]
    have h1 : format_day 0 ⟨1, "요가", 21, "낮음"⟩ =
        Except.ok ⟨"월요일", "요가", 21, "낮음", get_exercise_goal "요가" "낮음",
          estimate_calories "요가" 21 "낮음"⟩ := rfl
    rw [h1, hcal, show get_exercise_goal "요가" "낮음" = "유연성 및 정신 건강" from by decide]
  · norm_num

/-- C8 amended: for every formatted active day the energy equals the
truncation toward zero of `coefficient × duration × multiplier`
computed in exact arithmetic, where the coefficient defaults to 7 for
unknown activities and the multiplier table is LOW=0.7, MEDIUM=1.0,
HIGH=1.3 (default 1.0); REST days carry zero duration and energy. -/
theorem c8_energy_formula_amended :
    (∀ (i : Nat) (d : DayPlan) (e : PlanEntry), format_day i d = Except.ok e →
        (d.exercise_type ≠ "휴식" →
          e.estimated_calories =
            int_trunc ((((List.lookup d.exercise_type base_calories).getD 7 : Int) : Rat) *
              (d.duration : Rat) * ((List.lookup d.intensity intensity_multiplier).getD 1))) ∧
        (d.exercise_type = "휴식" → e.duration = 0 ∧ e.estimated_calories = 0)) ∧
    List.lookup "낮음" intensity_multiplier = some (7/10) ∧
    List.lookup "중간" intensity_multiplier = some 1 ∧
    List.lookup "높음" intensity_multiplier = some (13/10) := by
  refine ⟨?_, rfl, rfl, rfl⟩
  intro i d e h
  unfold format_day at h
  split at h
  · exact absurd h (by simp)
  · constructor
    · intro hex
      rw [if_pos hex] at h
      have he := Except.ok.inj h
      rw [← he]
      rfl
    · intro hex
      rw [if_neg (by simp [hex])] at h
      have he := Except.ok.inj h
      rw [← he]
      exact ⟨rfl, rfl⟩

theorem c8_energy_formula_amended_witness :
    (PlanEntry.mk "월요일" "요가" 21 "낮음" "유연성 및 정신 건강" 44).estimated_calories =
      int_trunc ((((List.lookup "요가" base_calories).getD 7 : Int) : Rat) *
        ((21 : Int) : Rat) * ((List.lookup "낮음" intensity_multiplier).getD 1)) :=
  (c8_energy_formula_amended.1 0 ⟨1, "요가", 21, "낮음"⟩
    ⟨"월요일", "요가", 21, "낮음", "유연성 및 정신 건강", 44⟩
    (by
      have hlook : List.lookup "요가" base_calories = some 3 := by decide
      have hmult : List.lookup "낮음" intensity_multiplier = some (7/10) := rfl
      have hcal : estimate_calories "요가" 21 "낮음" = 44 := by
        simp only [estimate_calories, hlook, hmult, Option.getD_some]
        norm_num [int_trunc]
      have h1 : format_day 0 ⟨1, "요가", 21, "낮음"⟩ =
          Except.ok ⟨"월요일", "요가", 21, "낮음", get_exercise_goal "요가" "낮음",
            estimate_calories "요가" 21 "낮음"⟩ := rfl
      rw [h1, hcal,
        show get_exercise_goal "요가" "낮음" = "유연성 및 정신 건강" from by decide])).1 (by decide)

/-! ### C10: an all-REST week scores exactly 45 -/

lemma workout_days_all_rest (l : List DayPlan)
    (h : ∀ d ∈ l, d.exercise_type = "휴식") : workout_days l = 0 := by
  unfold workout_days
  rw [List.countP_eq_zero]
  intro d hd
  simp [h d hd]

lemma count_intensity_all_none (l : List DayPlan) (i : String)
    (hi : ("없음" : String) ≠ i)
    (h : ∀ d ∈ l, d.intensity = "없음") : count_intensity l i = 0 := by
  unfold count_intensity
  rw [List.countP_eq_zero]
  intro d hd
  simp [h d hd, hi]

lemma total_duration_all_zero (l : List DayPlan)
    (h : ∀ d ∈ l, d.duration = 0) : total_duration l = 0 := by
  unfold total_duration
  refine List.sum_eq_zero ?_
  intro x hx
  obtain ⟨d, hd, rfl⟩ := List.mem_map.mp hx
  exact h d hd

lemma max_consecutive_all_rest (l : List DayPlan)
    (h : ∀ d ∈ l, d.exercise_type = "휴식") : max_consecutive l = 0 := by
  unfold max_consecutive
  have haux : ∀ (l' : List DayPlan), (∀ d ∈ l', d.exercise_type = "휴식") →
      ∀ m : Nat,
      (l'.foldl (fun p d => if d.exercise_type ≠ "휴식" then (p.1 + 1, max p.2 (p.1 + 1))
        else (0, p.2)) (0, m)) = (0, m) := by
    intro l'
    induction l' with
    | nil => intro _ m; rfl
    | cons x t ih =>
      intro hx m
      have hxr : x.exercise_type = "휴식" := hx x (List.mem_cons_self x t)
      rw [List.foldl_cons, if_neg (by simp [hxr])]
      exact ih (fun d hd => hx d (List.mem_cons_of_mem x hd)) m
  rw [haux l h 0]

lemma unique_exercises_all_rest (l : List DayPlan)
    (h : ∀ d ∈ l, d.exercise_type = "휴식") : unique_exercises l = 0 := by
  unfold unique_exercises
  rw [List.filter_eq_nil_iff.mpr (by intro d hd; simp [h d hd])]
  rfl

/-- C10: for a candidate whose seven days are all REST, the intensity
counts are all 0, so the balance term awards its full 20 and the
rest-spacing term its full 15, and the total fitness is exactly
45 = 10 + 0 + 20 + 15 + 0, for every daily budget. -/
theorem c10_all_rest_week_score (schedule : List DayPlan) (available_time : Int)
    (hlen : schedule.length = 7)
    (hrest : ∀ d ∈ schedule,
      d.exercise_type = "휴식" ∧ d.duration = 0 ∧ d.intensity = "없음") :
    balance_score schedule = 20 ∧ spacing_score schedule = 15 ∧
      frequency_score schedule = 10 ∧ utilization_score schedule available_time = 0 ∧
      variety_score schedule = 0 ∧ calculate_fitness schedule available_time = 45 := by
  have hex : ∀ d ∈ schedule, d.exercise_type = "휴식" := fun d hd => (hrest d hd).1
  have hdur : ∀ d ∈ schedule, d.duration = 0 := fun d hd => (hrest d hd).2.1
  have hint : ∀ d ∈ schedule, d.intensity = "없음" := fun d hd => (hrest d hd).2.2
  have hw := workout_days_all_rest schedule hex
  have hcl := count_intensity_all_none schedule "낮음" (by decide) hint
  have hcm := count_intensity_all_none schedule "중간" (by decide) hint
  have hch := count_intensity_all_none schedule "높음" (by decide) hint
  have htot := total_duration_all_zero schedule hdur
  have hmc := max_consecutive_all_rest schedule hex
  have huq := unique_exercises_all_rest schedule hex
  have hbal : balance_score schedule = 20 := by
    simp only [balance_score, hw, hcl, hcm, hch]
    norm_num
  have hsp : spacing_score schedule = 15 := by
    simp only [spacing_score, hmc]
    norm_num
  have hfr : frequency_score schedule = 10 := by
    simp only [frequency_score, hw]
    norm_num
  have hut : utilization_score schedule available_time = 0 := by
    simp only [utilization_score, htot]
    split_ifs with ht
    · rw [Int.cast_zero, zero_div, min_eq_left (by norm_num : (0:Rat) ≤ 1), zero_mul]
    · rw [zero_mul]
  have hvar : variety_score schedule = 0 := by
    simp only [variety_score, huq]
    norm_num
  refine ⟨hbal, hsp, hfr, hut, hvar, ?_⟩
  simp only [calculate_fitness, hbal, hsp, hfr, hut, hvar]
  norm_num

def restWeek : List DayPlan := List.replicate 7 ⟨1, "휴식", 0, "없음"⟩

theorem c10_all_rest_week_score_witness :
    balance_score restWeek = 20 ∧ spacing_score restWeek = 15 ∧
      frequency_score restWeek = 10 ∧ utilization_score restWeek 0 = 0 ∧
      variety_score restWeek = 0 ∧ calculate_fitness restWeek 0 = 45 :=
  c10_all_rest_week_score restWeek 0 (by decide) (by decide)

/-! ### C5: active-day durations stay in [20, budget] when budget ≥ 20 -/

/-- C5: with `dailyBudgetMinutes ≥ 20`, every active day the engine
produces has duration in `[20, dailyBudgetMinutes]` — by initial random
generation, by fresh synthesis during improvisation, and after pitch
adjustment of a memory-copied day (plain copies inherit the bound from
the memory, which the hypothesis expresses). -/
theorem c5_bounded_duration (available_time : Int) (hb : 20 ≤ available_time) :
    (∀ (types : List String) (day : Nat) (s : RS) (d : DayPlan) (t : RS),
        gen_day available_time types day s = Except.ok (d, t) →
        d.exercise_type ≠ "휴식" → 20 ≤ d.duration ∧ d.duration ≤ available_time) ∧
    (∀ (hm : List Entry) (types : List String) (hmcr par : Rat) (day : Nat)
        (s : RS) (d : DayPlan) (t : RS),
        (∀ e ∈ hm, ∀ p ∈ e.schedule, p.exercise_type ≠ "휴식" →
          20 ≤ p.duration ∧ p.duration ≤ available_time) →
        improvise_day hm available_time types hmcr par day s = Except.ok (d, t) →
        d.exercise_type ≠ "휴식" → 20 ≤ d.duration ∧ d.duration ≤ available_time) := by
  constructor
  · intro types day s d t h hact
    simp only [gen_day] at h
    by_cases hr : mkRat 3 10 < (pyRandom s).1
    · rw [if_pos hr] at h
      obtain ⟨q, -, h⟩ := exBind_eq_ok h
      obtain ⟨r, hrand, h⟩ := exBind_eq_ok h
      obtain ⟨u, -, h⟩ := exBind_eq_ok h
      have h' := Except.ok.inj h
      have hd : (⟨day + 1, q.1, r.1, u.1⟩ : DayPlan) = d := congrArg Prod.fst h'
      have hb2 := pyRandint_bounds hrand
      rw [← hd]
      show 20 ≤ r.1 ∧ r.1 ≤ available_time
      exact ⟨le_trans (le_max_left 20 (available_time - 20)) hb2.1, hb2.2⟩
    · rw [if_neg hr] at h
      have h' := Except.ok.inj h
      have hd : (⟨day + 1, "휴식", 0, "없음"⟩ : DayPlan) = d := congrArg Prod.fst h'
      rw [← hd] at hact
      exact absurd rfl hact
  · intro hm types hmcr par day s d t hmem h hact
    simp only [improvise_day] at h
    by_cases h1 : (pyRandom s).1 < hmcr
    · rw [if_pos h1] at h
      obtain ⟨q, hq, h⟩ := exBind_eq_ok h
      split at h
      · exact absurd h (by simp)
      · rename_i d0 hg
        have hd0 : d0.exercise_type ≠ "휴식" →
            20 ≤ d0.duration ∧ d0.duration ≤ available_time :=
          hmem q.1 (pyChoice_mem hq) d0 (List.get?_mem hg)
        by_cases h2 : (pyRandom q.2).1 < par
        · rw [if_pos h2] at h
          by_cases h3 : d0.exercise_type ≠ "휴식"
          · rw [if_pos h3] at h
            obtain ⟨u, -, h⟩ := exBind_eq_ok h
            obtain ⟨v, -, h⟩ := exBind_eq_ok h
            have h' := Except.ok.inj h
            have hd : ({ d0 with
                duration := min available_time (max 20 (d0.duration + u.1)),
                intensity := v.1 } : DayPlan) = d := congrArg Prod.fst h'
            rw [← hd]
            show 20 ≤ min available_time (max 20 (d0.duration + u.1)) ∧
              min available_time (max 20 (d0.duration + u.1)) ≤ available_time
            exact ⟨le_min hb (le_max_left 20 (d0.duration + u.1)), min_le_left _ _⟩
          · rw [if_neg h3] at h
            have h' := Except.ok.inj h
            have hd : d0 = d := congrArg Prod.fst h'
            rw [← hd] at hact ⊢
            exact hd0 hact
        · rw [if_neg h2] at h
          have h' := Except.ok.inj h
          have hd : d0 = d := congrArg Prod.fst h'
          rw [← hd] at hact ⊢
          exact hd0 hact
    · rw [if_neg h1] at h
      by_cases h4 : mkRat 3 10 < (pyRandom (pyRandom s).2).1
      · rw [if_pos h4] at h
        obtain ⟨q2, -, h⟩ := exBind_eq_ok h
        obtain ⟨u2, hu2, h⟩ := exBind_eq_ok h
        obtain ⟨v2, -, h⟩ := exBind_eq_ok h
        have h' := Except.ok.inj h
        have hd : (⟨day + 1, q2.1, u2.1, v2.1⟩ : DayPlan) = d := congrArg Prod.fst h'
        have hb2 := pyRandint_bounds hu2
        rw [← hd]
        show 20 ≤ u2.1 ∧ u2.1 ≤ available_time
        exact ⟨le_trans (le_max_left 20 (available_time - 20)) hb2.1, hb2.2⟩
      · rw [if_neg h4] at h
        have h' := Except.ok.inj h
        have hd : (⟨day + 1, "휴식", 0, "없음"⟩ : DayPlan) = d := congrArg Prod.fst h'
        rw [← hd] at hact
        exact absurd rfl hact

theorem c5_bounded_duration_witness :
    (20 : Int) ≤ 45 ∧ (45 : Int) ≤ 60 :=
  (c5_bounded_duration 60 (by decide)).1 mixed_list 0 [400, 0, 5, 1]
    ⟨1, "크로스핏", 45, "중간"⟩ [] (by decide) (by decide)

/-! ### C6: fitness sub-score bounds -/

lemma counts_le_workout (schedule : List DayPlan)
    (h : ∀ d ∈ schedule, d.exercise_type = "휴식" → d.intensity = "없음") :
    count_intensity schedule "낮음" + count_intensity schedule "중간" +
      count_intensity schedule "높음" ≤ workout_days schedule := by
  induction schedule with
  | nil => simp [count_intensity, workout_days]
  | cons d t ih =>
    have ht : ∀ x ∈ t, x.exercise_type = "휴식" → x.intensity = "없음" :=
      fun x hx => h x (List.mem_cons_of_mem d hx)
    have iht := ih ht
    simp only [count_intensity, workout_days, List.countP_cons] at iht ⊢
    simp only [ne_eq, decide_not] at iht
    by_cases hex : d.exercise_type = "휴식"
    · have hint : d.intensity = "없음" := h d (List.mem_cons_self d t) hex
      have e1 : (("없음" : String) = "낮음") = False := eq_false (by decide)
      have e2 : (("없음" : String) = "중간") = False := eq_false (by decide)
      have e3 : (("없음" : String) = "높음") = False := eq_false (by decide)
      simp only [hex, hint]
      norm_num [e1, e2, e3]
      omega
    · by_cases hl : d.intensity = "낮음"
      · have f1 : (("낮음" : String) = "중간") = False := eq_false (by decide)
        have f2 : (("낮음" : String) = "높음") = False := eq_false (by decide)
        simp only [hl]
        norm_num [hex, f1, f2]
        omega
      · by_cases hmn : d.intensity = "중간"
        · have f3 : (("중간" : String) = "낮음") = False := eq_false (by decide)
          have f4 : (("중간" : String) = "높음") = False := eq_false (by decide)
          simp only [hmn]
          norm_num [hex, f3, f4]
          omega
        · by_cases hh : d.intensity = "높음"
          · have f5 : (("높음" : String) = "낮음") = False := eq_false (by decide)
            have f6 : (("높음" : String) = "중간") = False := eq_false (by decide)
            simp only [hh]
            norm_num [hex, f5, f6]
            omega
          · norm_num [hex, hl, hmn, hh]
            omega

/-- C6: for every well-formed candidate (per the data model, §3) and
every daily budget, each of the five fitness sub-scores is non-negative
and bounded by its ceiling (30/25/20/15/10), so the total fitness never
exceeds 100. -/
theorem c6_fitness_term_ceilings (schedule : List DayPlan) (available_time : Int)
    (hwf : ∀ d ∈ schedule, WFDay d) :
    (0 ≤ frequency_score schedule ∧ frequency_score schedule ≤ 30) ∧
    (0 ≤ utilization_score schedule available_time ∧
      utilization_score schedule available_time ≤ 25) ∧
    (0 ≤ balance_score schedule ∧ balance_score schedule ≤ 20) ∧
    (0 ≤ spacing_score schedule ∧ spacing_score schedule ≤ 15) ∧
    (0 ≤ variety_score schedule ∧ variety_score schedule ≤ 10) ∧
    calculate_fitness schedule available_time ≤ 100 := by
  have hfreq : 0 ≤ frequency_score schedule ∧ frequency_score schedule ≤ 30 := by
    simp only [frequency_score]
    split_ifs <;> norm_num
  have hdur : ∀ d ∈ schedule, 0 ≤ d.duration := by
    intro d hd
    by_cases hex : d.exercise_type = "휴식"
    · exact le_of_eq (((hwf d hd).1 hex).1).symm
    · exact le_of_lt ((hwf d hd).2 hex).1
  have htot : 0 ≤ total_duration schedule := by
    unfold total_duration
    apply List.sum_nonneg
    intro x hx
    obtain ⟨d, hd, rfl⟩ := List.mem_map.mp hx
    exact hdur d hd
  have hminmul : ∀ r : Rat, 0 ≤ r → 0 ≤ min r 1 * 25 ∧ min r 1 * 25 ≤ 25 := by
    intro r hr
    constructor
    · exact mul_nonneg (le_min hr (by norm_num)) (by norm_num)
    · calc min r 1 * 25 ≤ 1 * 25 :=
          mul_le_mul_of_nonneg_right (min_le_right r 1) (by norm_num)
        _ = 25 := by norm_num
  have hutil : 0 ≤ utilization_score schedule available_time ∧
      utilization_score schedule available_time ≤ 25 := by
    simp only [utilization_score]
    split_ifs with ht
    · refine hminmul _ (div_nonneg ?_ ?_)
      · exact_mod_cast htot
      · exact_mod_cast le_of_lt ht
    · norm_num
  have hbal : 0 ≤ balance_score schedule ∧ balance_score schedule ≤ 20 := by
    have hri : ∀ d ∈ schedule, d.exercise_type = "휴식" → d.intensity = "없음" :=
      fun d hd hex => ((hwf d hd).1 hex).2
    have hsum := counts_le_workout schedule hri
    simp only [balance_score]
    set cl := count_intensity schedule "낮음" with hcl
    set cm := count_intensity schedule "중간" with hcm
    set ch := count_intensity schedule "높음" with hch
    set w := workout_days schedule with hw
    have hmaxle : max cl (max cm ch) ≤ max 1 w := by
      have hm1 : max cl (max cm ch) ≤ cl + cm + ch :=
        max_le (by omega) (max_le (by omega) (by omega))
      have hm2 : w ≤ max 1 w := le_max_right 1 w
      omega
    have hminmax : min cl (min cm ch) ≤ max cl (max cm ch) := by
      have h1 := min_le_left cl (min cm ch)
      have h2 := le_max_left cl (max cm ch)
      omega
    have hpos : (0:Rat) < ((max 1 w : Nat) : Rat) :=
      Nat.cast_pos.mpr (lt_of_lt_of_le Nat.zero_lt_one (le_max_left 1 w))
    have hdle : ((max cl (max cm ch) : Nat) : Rat) - ((min cl (min cm ch) : Nat) : Rat) ≤
        ((max 1 w : Nat) : Rat) := by
      have hc1 : ((max cl (max cm ch) : Nat) : Rat) ≤ ((max 1 w : Nat) : Rat) := by
        exact_mod_cast hmaxle
      have hc0 : (0:Rat) ≤ ((min cl (min cm ch) : Nat) : Rat) := Nat.cast_nonneg _
      linarith
    have hdnn : (0:Rat) ≤
        ((max cl (max cm ch) : Nat) : Rat) - ((min cl (min cm ch) : Nat) : Rat) := by
      have := (Nat.cast_le (α := Rat)).mpr hminmax
      linarith
    have hq1 : (((max cl (max cm ch) : Nat) : Rat) - ((min cl (min cm ch) : Nat) : Rat)) /
        ((max 1 w : Nat) : Rat) ≤ 1 := (div_le_one hpos).mpr hdle
    have hq0 : 0 ≤ (((max cl (max cm ch) : Nat) : Rat) - ((min cl (min cm ch) : Nat) : Rat)) /
        ((max 1 w : Nat) : Rat) := div_nonneg hdnn (le_of_lt hpos)
    constructor
    · linarith
    · linarith
  have hsp : 0 ≤ spacing_score schedule ∧ spacing_score schedule ≤ 15 := by
    simp only [spacing_score]
    split_ifs <;> norm_num
  have hvar : 0 ≤ variety_score schedule ∧ variety_score schedule ≤ 10 := by
    simp only [variety_score]
    constructor
    · exact Nat.cast_nonneg _
    · exact_mod_cast min_le_right (unique_exercises schedule * 5) 10
  refine ⟨hfreq, hutil, hbal, hsp, hvar, ?_⟩
  simp only [calculate_fitness]
  linarith [hfreq.1, hfreq.2, hutil.1, hutil.2, hbal.1, hbal.2, hsp.1, hsp.2,
    hvar.1, hvar.2]

theorem c6_fitness_term_ceilings_witness :
    (0 ≤ frequency_score restWeek ∧ frequency_score restWeek ≤ 30) ∧
    (0 ≤ utilization_score restWeek 60 ∧ utilization_score restWeek 60 ≤ 25) ∧
    (0 ≤ balance_score restWeek ∧ balance_score restWeek ≤ 20) ∧
    (0 ≤ spacing_score restWeek ∧ spacing_score restWeek ≤ 15) ∧
    (0 ≤ variety_score restWeek ∧ variety_score restWeek ≤ 10) ∧
    calculate_fitness restWeek 60 ≤ 100 :=
  c6_fitness_term_ceilings restWeek 60 (by decide)

/-! ### C9: more than 7 days makes the day-label lookup raise -/

lemma gen_days_length (available_time : Int) (types : List String) :
    ∀ (k day : Nat) (s : RS) (r : List DayPlan) (t : RS),
      gen_days available_time types day k s = Except.ok (r, t) → r.length = k := by
  intro k
  induction k with
  | zero =>
    intro day s r t h
    have h' := Except.ok.inj h
    have hr : ([] : List DayPlan) = r := congrArg Prod.fst h'
    rw [← hr]
    rfl
  | succ n ih =>
    intro day s r t h
    simp only [gen_days] at h
    obtain ⟨p, -, h⟩ := exBind_eq_ok h
    obtain ⟨q, hq, h⟩ := exBind_eq_ok h
    have h' := Except.ok.inj h
    have hr : p.1 :: q.1 = r := congrArg Prod.fst h'
    rw [← hr]
    simp [ih (day + 1) p.2 q.1 q.2 hq]

lemma improvise_days_length (hm : List Entry) (available_time : Int)
    (types : List String) (hmcr par : Rat) :
    ∀ (k day : Nat) (s : RS) (r : List DayPlan) (t : RS),
      improvise_days hm available_time types hmcr par day k s = Except.ok (r, t) →
      r.length = k := by
  intro k
  induction k with
  | zero =>
    intro day s r t h
    have h' := Except.ok.inj h
    have hr : ([] : List DayPlan) = r := congrArg Prod.fst h'
    rw [← hr]
    rfl
  | succ n ih =>
    intro day s r t h
    simp only [improvise_days] at h
    obtain ⟨p, -, h⟩ := exBind_eq_ok h
    obtain ⟨q, hq, h⟩ := exBind_eq_ok h
    have h' := Except.ok.inj h
    have hr : p.1 :: q.1 = r := congrArg Prod.fst h'
    rw [← hr]
    simp [ih (day + 1) p.2 q.1 q.2 hq]

lemma init_mem_sched_len (available_time : Int) (types : List String) (days : Nat) :
    ∀ (count : Nat) (s : RS) (hm : List Entry) (t : RS),
      init_mem available_time types days count s = Except.ok (hm, t) →
      ∀ e ∈ hm, e.schedule.length = days := by
  intro count
  induction count with
  | zero =>
    intro s hm t h e he
    have h' := Except.ok.inj h
    have hr : ([] : List Entry) = hm := congrArg Prod.fst h'
    rw [← hr] at he
    exact absurd he (by simp)
  | succ k ih =>
    intro s hm t h e he
    simp only [init_mem] at h
    obtain ⟨p, hp, h⟩ := exBind_eq_ok h
    obtain ⟨q, hq, h⟩ := exBind_eq_ok h
    have h' := Except.ok.inj h
    have hr : (⟨p.1, calculate_fitness p.1 available_time⟩ : Entry) :: q.1 = hm :=
      congrArg Prod.fst h'
    rw [← hr] at he
    rcases List.mem_cons.mp he with he1 | he2
    · rw [he1]
      exact gen_days_length available_time types days 0 s p.1 p.2 hp
    · exact ih p.2 q.1 q.2 hq e he2

lemma step_mem {hm : List Entry} {newh : List DayPlan} {fit : Rat} {e : Entry}
    (he : e ∈ step hm newh fit) : e ∈ hm ∨ e = ⟨newh, fit⟩ := by
  unfold step at he
  split_ifs at he
  · exact List.mem_or_eq_of_mem_set he
  · exact Or.inl he

lemma search_loop_sched_len (available_time : Int) (types : List String)
    (hmcr par : Rat) (days : Nat) :
    ∀ (k : Nat) (hm : List Entry) (s : RS) (hm' : List Entry) (t : RS),
      (∀ e ∈ hm, e.schedule.length = days) →
      search_loop available_time types hmcr par days k hm s = Except.ok (hm', t) →
      ∀ e ∈ hm', e.schedule.length = days := by
  intro k
  induction k with
  | zero =>
    intro hm s hm' t hinv h e he
    have h' := Except.ok.inj h
    have hr : hm = hm' := congrArg Prod.fst h'
    rw [← hr] at he
    exact hinv e he
  | succ n ih =>
    intro hm s hm' t hinv h e he
    simp only [search_loop] at h
    obtain ⟨p, hp, h⟩ := exBind_eq_ok h
    cases hm with
    | nil => exact absurd h (by simp)
    | cons e0 t0 =>
      refine ih (step (e0 :: t0) p.1 (calculate_fitness p.1 available_time)) p.2 hm' t
        ?_ h e he
      intro e' he'
      rcases step_mem he' with h1 | h2
      · exact hinv e' h1
      · rw [h2]
        exact improvise_days_length (e0 :: t0) available_time types hmcr par days 0 s
          p.1 p.2 hp

lemma bestAux_mem : ∀ (t : List Entry) (b : Entry), bestAux t b ∈ b :: t := by
  intro t
  induction t with
  | nil => intro b; exact List.mem_singleton_self b
  | cons e t' ih =>
    intro b
    simp only [bestAux]
    split_ifs
    · rcases List.mem_cons.mp (ih e) with h1 | h2
      · rw [h1]
        exact List.mem_cons_of_mem b (List.mem_cons_self e t')
      · exact List.mem_cons_of_mem b (List.mem_cons_of_mem e h2)
    · rcases List.mem_cons.mp (ih b) with h1 | h2
      · rw [h1]
        exact List.mem_cons_self b (e :: t')
      · exact List.mem_cons_of_mem b (List.mem_cons_of_mem e h2)

lemma format_day_big_err (i : Nat) (d : DayPlan) (hi : 7 ≤ i) :
    format_day i d = Except.error "list index out of range" := by
  unfold format_day
  rw [show days_kr.get? i = none from List.get?_eq_none.mpr (by simp [days_kr]; omega)]

lemma format_days_long_err :
    ∀ (l : List DayPlan) (i : Nat), l ≠ [] → 7 < i + l.length →
      isError (format_days i l) = true := by
  intro l
  induction l with
  | nil => intro i h _; exact absurd rfl h
  | cons d t ih =>
    intro i _ hlen
    simp only [format_days]
    by_cases hi : 7 ≤ i
    · rw [format_day_big_err i d hi, exBind_error]
      rfl
    · have hne : t ≠ [] := by
        intro ht
        rw [ht] at hlen
        simp at hlen
        omega
      have hlen' : 7 < (i + 1) + t.length := by
        simp at hlen
        omega
      exact isError_exBind _ _ (fun a => isError_exBind_left _ _ (ih (i + 1) hne hlen'))

lemma format_schedule_long_err (schedule : List DayPlan) (available_time : Int)
    (h : 7 < schedule.length) :
    isError (format_schedule schedule available_time) = true := by
  simp only [format_schedule]
  apply isError_exBind_left
  apply format_days_long_err
  · intro hnil
    rw [hnil] at h
    simp at h
  · simpa using h

/-- C9: `optimize_schedule` is total only for `days ≤ 7`: the formatter
labels day `i` by indexing the fixed 7-element weekday list, so for
every call with `days > 7` the run fails (an earlier raise, or the
day-label lookup going out of range on the winning candidate) and never
returns a report. -/
theorem c9_more_than_seven_days_fails (hms : Int) (hmcr par : Rat) (iterations : Nat)
    (available_time : Int) (preference : String) (days : Int) (s : RS)
    (h : 7 < days) :
    isError (optimize_schedule hms hmcr par iterations available_time preference days s) =
      true := by
  have hd7 : 7 < days.toNat := by omega
  simp only [optimize_schedule]
  cases hi : init_mem available_time (get_exercise_types preference) days.toNat
      hms.toNat s with
  | error e => simp only [hi, exBind_error]; rfl
  | ok p =>
    simp only [hi, exBind_ok]
    have hinv := init_mem_sched_len available_time (get_exercise_types preference)
      days.toNat hms.toNat s p.1 p.2 (by rw [hi])
    cases hl : search_loop available_time (get_exercise_types preference) hmcr par
        days.toNat iterations p.1 p.2 with
    | error e => simp only [hl, exBind_error]; rfl
    | ok q =>
      simp only [hl, exBind_ok]
      have hinv' := search_loop_sched_len available_time (get_exercise_types preference)
        hmcr par days.toNat iterations p.1 p.2 q.1 q.2 hinv (by rw [hl])
      cases hq : q.1 with
      | nil => simp only [hq]; rfl
      | cons e0 t0 =>
        simp only [hq]
        apply isError_exBind_left
        apply format_schedule_long_err
        have hmem : bestAux t0 e0 ∈ q.1 := by
          rw [hq]
          exact bestAux_mem t0 e0
        have hlen2 := hinv' (bestAux t0 e0) hmem
        omega

theorem c9_more_than_seven_days_fails_witness :
    isError (optimize_schedule 1 (mkRat 9 10) (mkRat 3 10) 0 60 "유산소" 8
      (List.replicate 8 0)) = true :=
  c9_more_than_seven_days_fails 1 (mkRat 9 10) (mkRat 3 10) 0 60 "유산소" 8
    (List.replicate 8 0) (by decide)
